import Mathlib

/-!
Shallow embedding of the WinSparkle update-decision engine
(`src/updatechecker.cpp`, plus the callback table in `appcontroller.cpp`).

The embedding follows the C++ source function by function:
* `ClassifyChar`, `SplitVersionString`, `CompareVersions` — the version
  comparator (lines 61–324 of `updatechecker.cpp`);
* `ParseGetVersionResponseJSON`, `GetServerVersion` — the server-baseline
  probe (lines 169–231), as a function of the HTTP response text;
* `ShouldSkipUpdate` / `ManualShouldSkipUpdate` — skip policy (428–443, 506–513);
* `PerformUpdateCheck` — the orchestrated check cycle (335–426), with
  collaborator behaviour (download, parse, settings) supplied as inputs and
  UI / settings side effects recorded as an event list;
* `periodicTurn` — one turn of `PeriodicUpdateChecker::Run` (446–482).

C++ strings are modelled as `List Char` where character arithmetic matters;
`std::string::compare` is modelled as the byte difference at the first
mismatch, else the length difference (the common `memcmp`-based behaviour —
only its sign is guaranteed by the C++ standard).  `atoi` is modelled as the
unbounded decimal value of the leading digit run (`int` overflow is UB in C
and the comparator only calls it on digit runs).
-/

/-- Character classification, from `ClassifyChar` in `updatechecker.cpp`. -/
inductive CharType where
  | Type_Number
  | Type_Period
  | Type_String
deriving DecidableEq, Repr

/-- `ClassifyChar`: `'.'` is a period, `'0'..'9'` a number, all else string. -/
def ClassifyChar (c : Char) : CharType :=
  if c = '.' then .Type_Period
  else if '0' ≤ c ∧ c ≤ '9' then .Type_Number
  else .Type_String

/-- Loop body of `SplitVersionString`: `s` is the segment built so far,
`prevType` the classification of its characters.  A new segment starts at a
classification boundary and after every period. -/
def splitLoop : List Char → CharType → List Char → List (List Char)
  | [], _, s => [s]
  | c :: rest, prevType, s =>
    let newType := ClassifyChar c
    if prevType ≠ newType ∨ prevType = .Type_Period then
      s :: splitLoop rest newType [c]
    else
      splitLoop rest newType (s ++ [c])

/-- `SplitVersionString`: split a version string into runs of same-classified
characters, with each period its own component ("1.20rc3" ↦ ["1",".","20","rc","3"]). -/
def SplitVersionString (version : List Char) : List (List Char) :=
  match version with
  | [] => []
  | c :: rest => splitLoop rest (ClassifyChar c) [c]

/-- Model of `std::string::compare`: byte difference at the first mismatching
position, otherwise the length difference.  (The C++ standard guarantees only
the sign; the magnitudes model the usual `memcmp`-based implementation.) -/
def strCmp : List Char → List Char → Int
  | x :: xs, y :: ys => if x = y then strCmp xs ys else (x.toNat : Int) - (y.toNat : Int)
  | as, bs => (as.length : Int) - (bs.length : Int)

/-- Model of `atoi` on a version component: decimal value of the leading run
of digits (unbounded; `int` overflow is UB in C). -/
def atoiLoop : List Char → Nat → Nat
  | [], acc => acc
  | c :: rest, acc =>
    if '0' ≤ c ∧ c ≤ '9' then atoiLoop rest (acc * 10 + (c.toNat - '0'.toNat))
    else acc

/-- `atoi` as used by `CompareVersions` (components start with a digit). -/
def atoi (s : List Char) : Int := (atoiLoop s 0 : Nat)

/-- The `intA > intB ? 1 : intA < intB ? -1 : continue` pattern of the
numeric branch of `CompareVersions`. -/
def numCmp (i j : Int) : Int := if i > j then 1 else if i < j then -1 else 0

/-- Classification of a whole component: `ClassifyChar(a[0])` in the source
(components produced by `SplitVersionString` are never empty). -/
def classifyTok (t : List Char) : CharType := ClassifyChar (t.headD 'x')

/-- One iteration of the comparison loop of `CompareVersions` on a pair of
components; `0` means "equal so far, continue".  Mirrors the `if`-chain of
lines 251–287 of `updatechecker.cpp` as a match on the two classifications. -/
def cmpTok (a b : List Char) : Int :=
  match classifyTok a, classifyTok b with
  | .Type_String, .Type_String => strCmp a b
  | .Type_Number, .Type_Number => numCmp (atoi a) (atoi b)
  | .Type_Period, .Type_Period => 0
  | .Type_Number, .Type_String => 1
  | .Type_Period, .Type_String => 1
  | .Type_String, .Type_Number => -1
  | .Type_String, .Type_Period => -1
  | .Type_Number, .Type_Period => 1
  | .Type_Period, .Type_Number => -1

/-- The component-list comparison of `CompareVersions`: compare pairwise up to
the common length; at the end of the shorter list, a missing string component
makes the shorter version greater ("1.5" > "1.5b3"), a missing number or
period component makes the longer version greater ("1.5.1" > "1.5"). -/
def compareParts : List (List Char) → List (List Char) → Int
  | [], [] => 0
  | a :: _, [] => if classifyTok a = .Type_String then -1 else 1
  | [], b :: _ => if classifyTok b = .Type_String then 1 else -1
  | a :: as, b :: bs =>
    let r := cmpTok a b
    if r ≠ 0 then r else compareParts as bs

/-- `UpdateChecker::CompareVersions` (lines 236–324 of `updatechecker.cpp`). -/
def CompareVersions (verA verB : String) : Int :=
  compareParts (SplitVersionString verA.data) (SplitVersionString verB.data)

-- Sanity: the literal cases of §8 of the spec.
example : CompareVersions "1.2.0" "1.2rc1" = 1 := by decide
example : CompareVersions "1.2rc1" "1.2.0" = -1 := by decide
example : CompareVersions "1.5" "1.5b3" = 1 := by decide
example : CompareVersions "1.5.1" "1.5" = 1 := by decide
example : CompareVersions "2.0.0" "2.0" = 1 := by decide
example : CompareVersions "2.0" "2.0" = 0 := by decide
example : SplitVersionString "1.20rc3".data = ["1".data, ".".data, "20".data, "rc".data, "3".data] := by decide

/-! ### Properties of the `std::string::compare` model -/

theorem char_toNat_inj {x y : Char} (h : x.toNat = y.toNat) : x = y :=
  Char.ext (UInt32.ext h)

theorem strCmp_self (a : List Char) : strCmp a a = 0 := by
  induction a with
  | nil => simp [strCmp]
  | cons x xs ih => simp [strCmp, ih]

theorem strCmp_neg (a b : List Char) : strCmp a b = -strCmp b a := by
  induction a generalizing b with
  | nil =>
    cases b with
    | nil => simp [strCmp]
    | cons y ys => simp [strCmp]
  | cons x xs ih =>
    cases b with
    | nil => simp [strCmp]
    | cons y ys =>
      by_cases h : x = y
      · subst h
        simpa [strCmp] using ih ys
      · have h' : ¬ y = x := fun hq => h hq.symm
        simp [strCmp, h, h']

theorem strCmp_eq_zero {a b : List Char} (h : strCmp a b = 0) : a = b := by
  induction a generalizing b with
  | nil =>
    cases b with
    | nil => rfl
    | cons y ys =>
      exfalso
      simp [strCmp] at h
      omega
  | cons x xs ih =>
    cases b with
    | nil =>
      exfalso
      simp [strCmp] at h
      omega
    | cons y ys =>
      by_cases hxy : x = y
      · subst hxy
        simp [strCmp] at h
        exact congrArg (x :: ·) (ih h)
      · exfalso
        simp [strCmp, hxy] at h
        exact hxy (char_toNat_inj (by omega))

theorem strCmp_trans_pos {a b c : List Char} (h1 : 0 < strCmp a b)
    (h2 : 0 < strCmp b c) : 0 < strCmp a c := by
  induction a generalizing b c with
  | nil =>
    exfalso
    cases b with
    | nil => simp [strCmp] at h1
    | cons y ys => simp [strCmp] at h1; omega
  | cons x xs ih =>
    cases b with
    | nil =>
      exfalso
      cases c with
      | nil => simp [strCmp] at h2
      | cons z zs => simp [strCmp] at h2; omega
    | cons y ys =>
      cases c with
      | nil => simp [strCmp]
      | cons z zs =>
        by_cases hxy : x = y
        · subst hxy
          by_cases hyz : x = z
          · subst hyz
            simp [strCmp] at h1 h2 ⊢
            exact ih h1 h2
          · simp [strCmp, hyz] at h2 ⊢
            omega
        · by_cases hyz : y = z
          · subst hyz
            simp [strCmp, hxy] at h1 ⊢
            omega
          · simp [strCmp, hxy, hyz] at h1 h2
            have hxz : x ≠ z := by
              intro hq
              subst hq
              omega
            simp [strCmp, hxz]
            omega

/-! ### Properties of the per-component comparison -/

theorem numCmp_self (i : Int) : numCmp i i = 0 := by simp [numCmp]

theorem numCmp_neg (i j : Int) : numCmp i j = -numCmp j i := by
  unfold numCmp
  repeat' split
  all_goals omega

theorem numCmp_pos {i j : Int} : 0 < numCmp i j ↔ j < i := by
  unfold numCmp
  repeat' split
  all_goals omega

theorem numCmp_zero {i j : Int} : numCmp i j = 0 ↔ i = j := by
  unfold numCmp
  repeat' split
  all_goals omega

theorem cmpTok_self (a : List Char) : cmpTok a a = 0 := by
  unfold cmpTok
  cases h : classifyTok a <;> simp [numCmp_self, strCmp_self]

theorem cmpTok_neg (a b : List Char) : cmpTok a b = -cmpTok b a := by
  unfold cmpTok
  cases h1 : classifyTok a <;> cases h2 : classifyTok b <;>
    simp [numCmp_neg (atoi a), strCmp_neg a]

theorem cmpTok_zero_class {a b : List Char} (h : cmpTok a b = 0) :
    classifyTok a = classifyTok b := by
  unfold cmpTok at h
  cases h1 : classifyTok a <;> cases h2 : classifyTok b <;> simp_all

theorem cmpTok_pos_string {a b : List Char} (h : 0 < cmpTok a b)
    (ha : classifyTok a = .Type_String) : classifyTok b = .Type_String := by
  unfold cmpTok at h
  cases h2 : classifyTok b <;> simp_all

theorem cmpTok_nonstring_string {a b : List Char}
    (ha : classifyTok a ≠ .Type_String) (hb : classifyTok b = .Type_String) :
    cmpTok a b = 1 := by
  unfold cmpTok
  cases h1 : classifyTok a <;> simp_all

theorem cmpTok_trans_pos {a b c : List Char} (h1 : 0 < cmpTok a b)
    (h2 : 0 < cmpTok b c) : 0 < cmpTok a c := by
  unfold cmpTok at h1 h2 ⊢
  cases ha : classifyTok a <;> cases hb : classifyTok b <;>
    cases hc : classifyTok c <;> simp_all
  · rw [numCmp_pos] at h1 h2 ⊢
    omega
  · exact strCmp_trans_pos h1 h2

theorem cmpTok_zero_pos {a b c : List Char} (h1 : cmpTok a b = 0)
    (h2 : 0 < cmpTok b c) : 0 < cmpTok a c := by
  unfold cmpTok at h1 h2 ⊢
  cases ha : classifyTok a <;> cases hb : classifyTok b <;>
    cases hc : classifyTok c <;> simp_all
  all_goals first
    | (rw [numCmp_zero] at h1
       rw [numCmp_pos] at h2 ⊢
       omega)
    | (obtain rfl := strCmp_eq_zero h1
       simp_all)

theorem cmpTok_pos_zero {a b c : List Char} (h1 : 0 < cmpTok a b)
    (h2 : cmpTok b c = 0) : 0 < cmpTok a c := by
  unfold cmpTok at h1 h2 ⊢
  cases ha : classifyTok a <;> cases hb : classifyTok b <;>
    cases hc : classifyTok c <;> simp_all
  all_goals first
    | (rw [numCmp_zero] at h2
       rw [numCmp_pos] at h1 ⊢
       omega)
    | (obtain rfl := strCmp_eq_zero h2
       simp_all)

theorem cmpTok_zero_zero {a b c : List Char} (h1 : cmpTok a b = 0)
    (h2 : cmpTok b c = 0) : cmpTok a c = 0 := by
  unfold cmpTok at h1 h2 ⊢
  cases ha : classifyTok a <;> cases hb : classifyTok b <;>
    cases hc : classifyTok c <;> simp_all
  all_goals first
    | (rw [numCmp_zero] at h1 h2 ⊢
       omega)
    | (obtain rfl := strCmp_eq_zero h1
       obtain rfl := strCmp_eq_zero h2
       exact strCmp_self _)

/-! ### Properties of the component-list comparison -/

theorem compareParts_self (l : List (List Char)) : compareParts l l = 0 := by
  induction l with
  | nil => rfl
  | cons a as ih => simp [compareParts, cmpTok_self, ih]

theorem compareParts_neg (x y : List (List Char)) :
    compareParts x y = -compareParts y x := by
  induction x generalizing y with
  | nil =>
    cases y with
    | nil => rfl
    | cons b bs =>
      simp only [compareParts]
      split <;> simp_all
  | cons a as ih =>
    cases y with
    | nil =>
      simp only [compareParts]
      split <;> simp_all
    | cons b bs =>
      simp only [compareParts]
      rw [cmpTok_neg a b]
      by_cases h : cmpTok b a = 0
      · simp [h, ih bs]
      · simp [h]

theorem compareParts_trans_pos {x y z : List (List Char)}
    (h1 : 0 < compareParts x y) (h2 : 0 < compareParts y z) :
    0 < compareParts x z := by
  induction x generalizing y z with
  | nil =>
    cases y with
    | nil => simp [compareParts] at h1
    | cons b bs =>
      cases z with
      | nil =>
        exfalso
        simp only [compareParts] at h1 h2
        by_cases hb : classifyTok b = .Type_String <;> simp_all
      | cons c cs =>
        -- x = [] : the goal asks that the first component of z is a string;
        -- from h1 the first component of y is a string, and h2 pushes it to z.
        simp only [compareParts] at h1 h2 ⊢
        by_cases hb : classifyTok b = .Type_String
        · by_cases hbc : cmpTok b c = 0
          · simp [← cmpTok_zero_class hbc, hb]
          · simp only [hbc, if_pos, ne_eq, not_false_iff, if_true] at h2
            simp [cmpTok_pos_string h2 hb]
        · simp [hb] at h1
  | cons a as ih =>
    cases y with
    | nil =>
      cases z with
      | nil => simp [compareParts] at h2
      | cons c cs =>
        -- y = [] : from h1 the first component of x is not a string and from
        -- h2 the first component of z is a string, so x wins on component 0.
        simp only [compareParts] at h1 h2 ⊢
        by_cases ha : classifyTok a = .Type_String
        · simp [ha] at h1
        · by_cases hc : classifyTok c = .Type_String
          · have hac := cmpTok_nonstring_string ha hc
            simp [hac]
          · simp [hc] at h2
    | cons b bs =>
      cases z with
      | nil =>
        -- z = [] : goal asks that the first component of x is not a string.
        simp only [compareParts] at h1 h2 ⊢
        by_cases hb : classifyTok b = .Type_String
        · simp [hb] at h2
        · by_cases hab : cmpTok a b = 0
          · simp [cmpTok_zero_class hab, hb]
          · simp only [hab, ne_eq, not_false_iff, if_true] at h1
            have ha : classifyTok a ≠ .Type_String := by
              intro ha
              exact hb (cmpTok_pos_string h1 ha)
            simp [ha]
      | cons c cs =>
        simp only [compareParts] at h1 h2 ⊢
        by_cases hab : cmpTok a b = 0
        · by_cases hbc : cmpTok b c = 0
          · have hac := cmpTok_zero_zero hab hbc
            simp only [hab, hbc, hac, ne_eq, not_true, if_false] at h1 h2 ⊢
            simp at h1 h2 ⊢
            exact ih h1 h2
          · simp only [hbc, ne_eq, not_false_iff, if_true] at h2
            have hac := cmpTok_zero_pos hab h2
            have : cmpTok a c ≠ 0 := by omega
            simp [this, hac]
        · simp only [hab, ne_eq, not_false_iff, if_true] at h1
          by_cases hbc : cmpTok b c = 0
          · have hac := cmpTok_pos_zero h1 hbc
            have : cmpTok a c ≠ 0 := by omega
            simp [this, hac]
          · simp only [hbc, ne_eq, not_false_iff, if_true] at h2
            have hac := cmpTok_trans_pos h1 h2
            have : cmpTok a c ≠ 0 := by omega
            simp [this, hac]

theorem numCmp_values (i j : Int) :
    numCmp i j = -1 ∨ numCmp i j = 0 ∨ numCmp i j = 1 := by
  unfold numCmp
  repeat' split
  all_goals simp

/-- **C1.** `CompareVersions` is a total order on version strings: it is
reflexive (`Compare(a,a) = 0`), sign-antisymmetric
(`sign(Compare(a,b)) = −sign(Compare(b,a))`), and transitive on strict
comparisons (`Compare(a,b) > 0 ∧ Compare(b,c) > 0 → Compare(a,c) > 0`), so it
is usable directly as a sort comparator. -/
theorem compareVersions_total_order (a b c : String) :
    CompareVersions a a = 0 ∧
    Int.sign (CompareVersions a b) = -Int.sign (CompareVersions b a) ∧
    (0 < CompareVersions a b → 0 < CompareVersions b c → 0 < CompareVersions a c) := by
  refine ⟨compareParts_self _, ?_, fun h1 h2 => compareParts_trans_pos h1 h2⟩
  rw [show CompareVersions a b = -CompareVersions b a from compareParts_neg _ _]
  exact Int.sign_neg _

/-- Witness for C1: transitivity applied at `"2.0" > "1.5" > "1.2rc1"`. -/
theorem compareVersions_total_order_witness : 0 < CompareVersions "2.0" "1.2rc1" :=
  (compareVersions_total_order "2.0" "1.5" "1.2rc1").2.2 (by decide) (by decide)

/-- **C5, counterexample.** `CompareVersions` does not always return a value
in `{-1, 0, 1}`: for the single-textual-component strings `"c"` and `"a"` it
returns the raw `std::string::compare` byte difference `2`. -/
theorem compareVersions_value_outside_unit_range :
    CompareVersions "c" "a" = 2 ∧
    ¬(CompareVersions "c" "a" = -1 ∨ CompareVersions "c" "a" = 0 ∨
      CompareVersions "c" "a" = 1) := by
  decide

theorem compareParts_mem_or_strCmp (x y : List (List Char)) :
    (compareParts x y = -1 ∨ compareParts x y = 0 ∨ compareParts x y = 1) ∨
    ∃ s ∈ x, ∃ t ∈ y, compareParts x y = strCmp s t := by
  induction x generalizing y with
  | nil =>
    cases y with
    | nil => simp [compareParts]
    | cons b bs =>
      left
      simp only [compareParts]
      split <;> simp
  | cons a as ih =>
    cases y with
    | nil =>
      left
      simp only [compareParts]
      split <;> simp
    | cons b bs =>
      by_cases h : cmpTok a b = 0
      · rcases ih bs with h' | ⟨s, hs, t, ht, he⟩
        · left
          simpa [compareParts, h] using h'
        · right
          exact ⟨s, List.mem_cons_of_mem _ hs, t, List.mem_cons_of_mem _ ht,
            by simpa [compareParts, h] using he⟩
      · rw [show compareParts (a :: as) (b :: bs) = cmpTok a b by
          simp [compareParts, h]]
        unfold cmpTok
        cases h1 : classifyTok a <;> cases h2 : classifyTok b <;>
          first
            | (right; exact ⟨a, List.mem_cons_self a as, b, List.mem_cons_self b bs, rfl⟩)
            | (left; first | exact numCmp_values _ _ | simp)

/-- **C5, amended.** `CompareVersions` returns a value in `{-1, 0, 1}` except
when the comparison is decided by the byte comparison of two textual
components, in which case the raw (sign-correct, arbitrary-magnitude)
`std::string::compare` result of those two components is returned. -/
theorem compareVersions_range (a b : String) :
    (CompareVersions a b = -1 ∨ CompareVersions a b = 0 ∨ CompareVersions a b = 1) ∨
    ∃ s ∈ SplitVersionString a.data, ∃ t ∈ SplitVersionString b.data,
      CompareVersions a b = strCmp s t :=
  compareParts_mem_or_strCmp _ _

/-! ## Server-baseline probe (`GetServerVersion`, lines 169–231)

`HttpGetWinINet` is network I/O; its result (the HTTP response body, empty on
any connection failure) is an input of the model.  The JSON "parsing" is the
source's literal sequence of `std::string::find` calls. -/

/-- Does `needle` occur at the start of `hay`? (helper for `std::string::find`). -/
def isPrefixList : List Char → List Char → Bool
  | [], _ => true
  | _ :: _, [] => false
  | x :: xs, y :: ys => x = y && isPrefixList xs ys

/-- Scan for the first occurrence of `needle` at index ≥ `idx`. -/
def findFromAux (needle : List Char) : List Char → Nat → Option Nat
  | [], idx => if isPrefixList needle [] then some idx else none
  | hay@(_ :: t), idx =>
    if isPrefixList needle hay then some idx else findFromAux needle t (idx + 1)

/-- `std::string::find(needle, start)`: index of the first occurrence of
`needle` at or after `start`, `none` for `npos`. -/
def strFind (hay needle : List Char) (start : Nat) : Option Nat :=
  findFromAux needle (hay.drop start) start

/-- `ParseGetVersionResponseJSON`: find the key, then the next `':'`, then the
next `'"'`, then the closing `'"'`, and return the text between the quotes;
any failed `find` yields the empty string. -/
def ParseGetVersionResponseJSON (json key : List Char) : List Char :=
  match strFind json key 0 with
  | none => []
  | some s0 =>
    match strFind json [':'] s0 with
    | none => []
    | some s1 =>
      match strFind json ['"'] s1 with
      | none => []
      | some s2 =>
        match strFind json ['"'] (s2 + 1) with
        | none => []
        | some e => ((json.drop (s2 + 1)).take (e - s2 - 1))

/-- `GetServerVersion` as a function of the HTTP response body: empty response
(any network failure) yields `""`; otherwise the `oethServerVersion` value if
present; otherwise, if an `error_msg` value is present and contains `"404"`,
the hard-coded default `"2.1.2"`; otherwise `""`. -/
def GetServerVersion (json_response : List Char) : List Char :=
  if json_response = [] then []
  else
    let value := ParseGetVersionResponseJSON json_response "oethServerVersion".data
    if value ≠ [] then value
    else
      let value2 := ParseGetVersionResponseJSON json_response "error_msg".data
      if value2 ≠ [] then
        if (strFind value2 "404".data 0).isSome then "2.1.2".data
        else []
      else []

-- Sanity checks of the probe model.
example : ParseGetVersionResponseJSON "oethServerVersion: \"3.0.1\"".data
    "oethServerVersion".data = "3.0.1".data := by decide
example : GetServerVersion "oethServerVersion: \"3.0.1\"".data = "3.0.1".data := by decide
example : GetServerVersion "error_msg: \"http error 404\"".data = "2.1.2".data := by decide
example : GetServerVersion "error_msg: \"http error 500\"".data = [] := by decide
example : GetServerVersion [] = [] := by decide

/-! ## Data model and collaborators of the check cycle -/

/-- Modelled from the spec: the ReleaseEntry record produced by the feed
parser (`Appcast` in `appcast.h`, which is not part of the sources; fields are
the ones `updatechecker.cpp` reads). -/
structure Appcast where
  Version : String
  MinServerVersion : String
  CriticalUpdate : Bool
  ReleaseNotesURL : String
  DownloadURL : String
deriving DecidableEq, Inhabited, Repr

/-- Modelled from the spec: `Appcast::GetDownloadURL` (declared in
`appcast.h`), the download link of the entry. -/
def Appcast.GetDownloadURL (a : Appcast) : String := a.DownloadURL

/-- Modelled from the spec: `Appcast::IsValid` (declared in `appcast.h`) —
"entries with unparsable/missing Version are considered invalid candidates",
so an entry is valid iff its version text is non-empty. -/
def Appcast.IsValid (a : Appcast) : Bool := a.Version != ""

/-- Modelled from the spec: `CheckForInsecureURL` (declared in `utils.h`)
throws unless the URL uses the approved secure transport scheme; the
SecurityGate "rejects http://example.com/feed.xml, accepts
https://example.com/feed.xml". -/
def isSecureURL (url : String) : Bool := url.take 8 == "https://"

/-- Error codes passed to `UI::NotifyUpdateError` in the catch handlers. -/
inductive ErrorCode where
  | Err_AppcastXmlUnavailable
  | Err_Generic
deriving DecidableEq, Repr

/-- The C++ exceptions distinguished by the catch handlers of
`PerformUpdateCheck`: `DownloadException`, any other `std::exception` (with
its `what()` text), and a non-`std` exception (`catch (...)`). -/
inductive CppError where
  | downloadException (msg : String)
  | stdException (msg : String)
  | unknownException
deriving DecidableEq, Repr

/-- Observable side effects of one check cycle: the `UI::Notify*` calls and
the `Settings::WriteConfigValue("LastCheckTime", ...)` write. -/
inductive Event where
  | notifyNoUpdates (installAutomatically : Bool) (showDialog : Bool)
  | notifyUpdateAvailable (entry : Appcast) (installAutomatically : Bool)
  | notifyUpdateError (code : ErrorCode) (msg : String)
  | writeLastCheckTime
deriving DecidableEq, Repr

/-- Collaborator behaviour for one run of `PerformUpdateCheck`:
the configured appcast URL (`Settings::GetAppcastURL`), the result of
`DownloadFile` (the feed text, or a thrown exception), the result of
`Appcast::Load` (the entry list, or a thrown exception), the HTTP response
body of the `/getVersion` probe (empty on network failure), the current
application version (`Settings::GetAppBuildVersion`), the stored
"SkipThisVersion" value (`none` when `Settings::ReadConfigValue` fails), and
the auto-install capability flag (`ShouldAutomaticallyInstall`). -/
structure World where
  appcastURL : String
  downloadResult : Except CppError String
  parseResult : Except CppError (List Appcast)
  serverResponse : String
  currentVersion : String
  skipPref : Option String
  autoInstall : Bool

/-- `UpdateChecker::ShouldSkipUpdate` (lines 428–443): a critical update is
never skipped; otherwise skip iff the stored "SkipThisVersion" value exists
and equals the entry's version text exactly. -/
def ShouldSkipUpdate (skipPref : Option String) (appcast : Appcast) : Bool :=
  if appcast.CriticalUpdate then false
  else
    match skipPref with
    | some toSkip => toSkip == appcast.Version
    | none => false

/-- `ManualUpdateChecker::ShouldSkipUpdate` (lines 506–513): never skip. -/
def ManualShouldSkipUpdate (_ : Appcast) : Bool := false

/-- Stable insertion into a sorted list: `x` goes in front of the first
element strictly greater than it, hence after every earlier equivalent one. -/
def insertSorted (lt : α → α → Bool) (x : α) : List α → List α
  | [] => [x]
  | y :: ys => if lt x y then x :: y :: ys else y :: insertSorted lt x ys

/-- Model of `std::stable_sort`: the stably sorted permutation is unique for
a strict weak order, so any stable sorting algorithm computes it; this one
inserts the elements left to right. -/
def stableSortBy (lt : α → α → Bool) (l : List α) : List α :=
  l.foldl (fun acc x => insertSorted lt x acc) []

/-- The `std::stable_sort` call of `PerformUpdateCheck` (lines 366–370):
ascending by version, comparator `CompareVersions(a.Version, b.Version) < 0`. -/
def sortByVersion (l : List Appcast) : List Appcast :=
  stableSortBy (fun a b => decide (CompareVersions a.Version b.Version < 0)) l

/-- The `std::find_if` predicate of line 375: critical and strictly newer
than the current version. -/
def qualifies (currentVersion : String) (a : Appcast) : Bool :=
  a.CriticalUpdate && decide (CompareVersions currentVersion a.Version < 0)

/-- Candidate choice of line 378: the first critical-and-newer entry of the
ascending-sorted list if one exists, else the last (highest) entry
(`all.back()`; the caller guarantees the list is non-empty). -/
def selectCandidate (sorted : List Appcast) (currentVersion : String) : Appcast :=
  match sorted.find? (qualifies currentVersion) with
  | some c => c
  | none => sorted.getLastD default

/-- The baseline filter of lines 350–356: `remove_if` erases entries whose
`MinServerVersion` is strictly above the probed server version. -/
def eligibleEntries (serverVersion : String) (all : List Appcast) : List Appcast :=
  all.filter fun a => !decide (CompareVersions serverVersion a.MinServerVersion < 0)

/-- The `try` body of `PerformUpdateCheck` (lines 337–401): the emitted events
and `none`, or the events emitted before a thrown exception and that
exception. -/
def checkBody (w : World) (show_dialog : Bool) (skipPolicy : Appcast → Bool) :
    List Event × Option CppError :=
  if w.appcastURL = "" then
    ([], some (.stdException "The update source configuration is missing. Please contact support."))
  else if !isSecureURL w.appcastURL then
    ([], some (.stdException "insecure URL for appcast feed"))
  else
    match w.downloadResult with
    | .error e => ([], some e)
    | .ok _appcast_xml =>
      match w.parseResult with
      | .error e => ([], some e)
      | .ok allLoaded =>
        let current_server_version := String.mk (GetServerVersion w.serverResponse.data)
        let all := eligibleEntries current_server_version allLoaded
        if all = [] then
          ([.notifyNoUpdates w.autoInstall show_dialog], none)
        else
          let sorted := sortByVersion all
          let appcast := selectCandidate sorted w.currentVersion
          if appcast.ReleaseNotesURL != "" && !isSecureURL appcast.ReleaseNotesURL then
            ([], some (.stdException "insecure URL for release notes"))
          else if appcast.GetDownloadURL != "" && !isSecureURL appcast.GetDownloadURL then
            ([], some (.stdException "insecure URL for update file"))
          else if !appcast.IsValid || decide (0 ≤ CompareVersions w.currentVersion appcast.Version) then
            ([.writeLastCheckTime, .notifyNoUpdates w.autoInstall show_dialog], none)
          else if skipPolicy appcast && !show_dialog then
            ([.writeLastCheckTime], none)
          else
            ([.writeLastCheckTime, .notifyUpdateAvailable appcast w.autoInstall], none)

/-- `UpdateChecker::PerformUpdateCheck` (lines 335–426): the `try` body plus
the three catch handlers.  A `DownloadException` reports
`Err_AppcastXmlUnavailable` and a `std::exception` reports `Err_Generic`,
each only when `show_dialog` is set; `catch (...)` reports `Err_Generic`
unconditionally.  All three rethrow. -/
def PerformUpdateCheck (w : World) (show_dialog : Bool)
    (skipPolicy : Appcast → Bool) : List Event × Option CppError :=
  let r := checkBody w show_dialog skipPolicy
  match r.2 with
  | none => r
  | some (.downloadException m) =>
    (r.1 ++ (if show_dialog then [.notifyUpdateError .Err_AppcastXmlUnavailable m] else []),
     r.2)
  | some (.stdException m) =>
    (r.1 ++ (if show_dialog then [.notifyUpdateError .Err_Generic m] else []), r.2)
  | some .unknownException =>
    (r.1 ++ [.notifyUpdateError .Err_Generic "Unknown exception"], r.2)

/-- One turn of the `while` loop of `PeriodicUpdateChecker::Run` (lines
446–482), as a function of the stored check-enabled flag, the stored
last-check time (`none` when never written; the local variable defaults to
`0`), the configured interval and the current time.  Result: whether
`PerformUpdateCheck` ran this turn (with its `show_dialog` argument), and the
wait in seconds until the next turn. -/
def periodicTurn (checkUpdates : Bool) (lastCheckStored : Option Int)
    (interval : Int) (currentTime : Int) : Option Bool × Int :=
  if checkUpdates then
    let lastCheck := lastCheckStored.getD 0
    let nextCheck := lastCheck + interval
    if currentTime ≥ nextCheck then (some false, interval)
    else (none, nextCheck - currentTime)
  else (none, 60 * 60)

/-! ## Concrete scenarios -/

/-- Entry v="1.0", non-critical, no baseline requirement. -/
def exEntry1 : Appcast := ⟨"1.0", "", false, "", ""⟩

/-- Entry v="2.0", critical, no baseline requirement. -/
def exEntry2 : Appcast := ⟨"2.0", "", true, "", ""⟩

/-- Entry v="3.0", non-critical, no baseline requirement. -/
def exEntry3 : Appcast := ⟨"3.0", "", false, "", ""⟩

/-- The C2 scenario: feed [1.0, 2.0-critical, 3.0], current version 0.5,
probe response empty, nothing skipped. -/
def exWorldC2 : World :=
  ⟨"https://example.com/appcast.xml", .ok "feed", .ok [exEntry1, exEntry2, exEntry3],
   "", "0.5", none, false⟩

example : PerformUpdateCheck exWorldC2 false (ShouldSkipUpdate none)
    = ([.writeLastCheckTime, .notifyUpdateAvailable exEntry2 false], none) := by decide

theorem find?_some_first {α : Type} (p : α → Bool) :
    ∀ (l : List α) (e : α), l.find? p = some e →
      ∃ (n : Nat) (h : n < l.length), l.get ⟨n, h⟩ = e ∧ p e = true ∧
        ∀ (m : Nat) (hm : m < l.length), m < n → p (l.get ⟨m, hm⟩) = false := by
  intro l
  induction l with
  | nil => intro e he; simp [List.find?] at he
  | cons a as ih =>
    intro e he
    by_cases hp : p a = true
    · rw [List.find?_cons_of_pos _ hp] at he
      obtain rfl : a = e := by injection he
      exact ⟨0, by simp, rfl, hp, fun m hm hlt => absurd hlt (Nat.not_lt_zero m)⟩
    · rw [List.find?_cons_of_neg _ hp] at he
      obtain ⟨n, h, hget, hpe, hfirst⟩ := ih e he
      refine ⟨n + 1, by simpa using h, by simpa using hget, hpe, ?_⟩
      intro m hm hlt
      cases m with
      | zero => simpa using hp
      | succ m' =>
        have hm' : m' < as.length := by simpa using hm
        simpa using hfirst m' hm' (Nat.lt_of_succ_lt_succ hlt)

/-- **C2.** Candidate selection over the ascending-sorted, baseline-filtered
entry list picks the first entry that is both critical and strictly newer
than the current version (per `CompareVersions`); if no such entry exists it
picks the last element; hence with entries
[{v:"1.0",crit:false},{v:"2.0",crit:true},{v:"3.0",crit:false}] and current
version "0.5" (all passing the baseline) the chosen candidate is "2.0", not
"3.0". -/
theorem candidate_selection_first_critical :
    (∀ (s : List Appcast) (cv : String) (e : Appcast),
        s.find? (qualifies cv) = some e →
        selectCandidate s cv = e ∧
        ∃ (n : Nat) (h : n < s.length), s.get ⟨n, h⟩ = e ∧ qualifies cv e = true ∧
          ∀ (m : Nat) (hm : m < s.length), m < n → qualifies cv (s.get ⟨m, hm⟩) = false) ∧
    (∀ (s : List Appcast) (cv : String),
        s.find? (qualifies cv) = none → selectCandidate s cv = s.getLastD default) ∧
    (PerformUpdateCheck exWorldC2 false (ShouldSkipUpdate none)
        = ([.writeLastCheckTime, .notifyUpdateAvailable exEntry2 false], none) ∧
      exEntry2.Version = "2.0" ∧ exEntry3.Version = "3.0") := by
  refine ⟨?_, ?_, by decide, by decide, by decide⟩
  · intro s cv e he
    exact ⟨by simp [selectCandidate, he], find?_some_first _ s e he⟩
  · intro s cv he
    simp [selectCandidate, he]

/-- Witness for C2: on the sorted C2 list with current version "0.5" the
selector returns the critical entry "2.0". -/
theorem candidate_selection_first_critical_witness :
    selectCandidate [exEntry1, exEntry2, exEntry3] "0.5" = exEntry2 :=
  (candidate_selection_first_critical.1 [exEntry1, exEntry2, exEntry3] "0.5" exEntry2
    (by decide)).1

/-! ## C3: behaviour of the baseline filter when the probe fails -/

/-- The C3 scenario: probe response empty (baseline absent), one non-critical
entry v="1.0" with empty `MinServerVersion`, current version "0.5". -/
def exWorldC3 : World :=
  ⟨"https://example.com/appcast.xml", .ok "feed", .ok [exEntry1], "", "0.5", none, false⟩

/-- **C3, counterexample.** With the server baseline absent (empty probe
response, hence `GetServerVersion` = `""`), an entry whose
`MinimumServerBaseline` is empty still passes the filter
(`CompareVersions("","") = 0 ≥ 0`), the filtered set is non-empty, and the
cycle's outcome is UpdateAvailable — not NoUpdate as the claim states. -/
theorem absent_baseline_entry_passes :
    GetServerVersion "".data = [] ∧
    eligibleEntries "" [exEntry1] = [exEntry1] ∧
    PerformUpdateCheck exWorldC3 false (ShouldSkipUpdate none)
      = ([.writeLastCheckTime, .notifyUpdateAvailable exEntry1 false], none) := by
  decide

/-- Does the version string start with a digit or a period?  Exactly these
baselines lose against the empty (absent) server version. -/
def startsNumericOrPeriod (s : String) : Bool :=
  match s.data with
  | [] => false
  | c :: _ => ClassifyChar c != CharType.Type_String

theorem splitLoop_head (rest : List Char) (t : CharType) (acc : List Char) :
    ∃ (u : List Char) (ts : List (List Char)), splitLoop rest t acc = (acc ++ u) :: ts := by
  induction rest generalizing t acc with
  | nil => exact ⟨[], [], by simp [splitLoop]⟩
  | cons c rest ih =>
    simp only [splitLoop]
    split
    · exact ⟨[], splitLoop rest (ClassifyChar c) [c], by simp⟩
    · obtain ⟨u, ts, h⟩ := ih (ClassifyChar c) (acc ++ [c])
      exact ⟨[c] ++ u, ts, by simpa using h⟩

/-- Comparison against the empty version string: `"" < m` exactly when `m`
starts with a digit or a period (its first component is not textual). -/
theorem compareVersions_empty_lt (m : String) :
    CompareVersions "" m < 0 ↔ startsNumericOrPeriod m = true := by
  unfold CompareVersions startsNumericOrPeriod
  cases hm : m.data with
  | nil => simp [SplitVersionString, compareParts]
  | cons c rest =>
    obtain ⟨u, ts, hsplit⟩ := splitLoop_head rest (ClassifyChar c) [c]
    simp only [SplitVersionString, hsplit]
    have hcls : classifyTok ((c :: u) ++ ts.headD []) = ClassifyChar c := rfl
    simp only [compareParts]
    have hhead : classifyTok ([c] ++ u) = ClassifyChar c := rfl
    rw [show ([c] ++ u) = c :: u from rfl] at hhead
    by_cases h : ClassifyChar c = CharType.Type_String
    · simp [hhead, h]
    · simp [hhead, h]

/-- **C3, amended.** If the server baseline is absent (empty probe response,
modelled by the code as the empty string), the filter removes exactly the
entries whose `MinimumServerBaseline` starts with a digit or a period; when
every entry's baseline does (in particular every nonempty purely numeric
baseline), the filtered set is empty and the cycle's outcome is NoUpdate.
Entries with an empty or textual-initial baseline still pass. -/
theorem absent_baseline_noupdate
    (u xml cv : String) (entries : List Appcast) (sp : Option String) (ai sd : Bool)
    (hu : ¬ u = "") (hsec : isSecureURL u = true)
    (hmin : ∀ a ∈ entries, startsNumericOrPeriod a.MinServerVersion = true) :
    eligibleEntries (String.mk (GetServerVersion ("" : String).data)) entries = [] ∧
    PerformUpdateCheck ⟨u, .ok xml, .ok entries, "", cv, sp, ai⟩ sd (ShouldSkipUpdate sp)
      = ([.notifyNoUpdates ai sd], none) := by
  have hfilter : eligibleEntries (String.mk (GetServerVersion ("" : String).data)) entries = [] := by
    rw [show (String.mk (GetServerVersion ("" : String).data)) = "" from rfl]
    rw [eligibleEntries, List.filter_eq_nil_iff]
    intro a ha
    have h := (compareVersions_empty_lt a.MinServerVersion).mpr (hmin a ha)
    simp [h]
  refine ⟨hfilter, ?_⟩
  simp only [PerformUpdateCheck, checkBody]
  simp [hu, hsec, hfilter]

/-- Entry v="1.0" requiring server baseline "2.0". -/
def exEntryMin : Appcast := ⟨"1.0", "2.0", false, "", ""⟩

/-- Witness for the amended C3: with the probe absent, an entry gated on
baseline "2.0" is filtered out and the cycle reports NoUpdate. -/
theorem absent_baseline_noupdate_witness :
    eligibleEntries (String.mk (GetServerVersion ("" : String).data)) [exEntryMin] = [] ∧
    PerformUpdateCheck ⟨"https://example.com/appcast.xml", .ok "feed", .ok [exEntryMin],
        "", "0.5", none, false⟩ false (ShouldSkipUpdate none)
      = ([.notifyNoUpdates false false], none) :=
  absent_baseline_noupdate "https://example.com/appcast.xml" "feed" "0.5" [exEntryMin]
    none false false (by decide) (by decide) (by decide)

/-! ## C4: error reporting of the catch handlers -/

/-- Is the event a `UI::NotifyUpdateError` call? -/
def isErrorReport : Event → Bool
  | .notifyUpdateError _ _ => true
  | _ => false

/-- Did the run make a user-visible error report? -/
def hasErrorReport (evs : List Event) : Bool := evs.any isErrorReport

/-- Every abort of the `try` body happens before any event is emitted. -/
theorem checkBody_cases (w : World) (sd : Bool) (sp : Appcast → Bool) :
    (checkBody w sd sp).2 = none ∨ (checkBody w sd sp).1 = [] := by
  unfold checkBody
  dsimp only
  repeat' split
  all_goals first
    | exact Or.inl rfl
    | exact Or.inr rfl

/-- The failure scenario for C4: the download collaborator throws a non-`std`
exception; nothing else matters. -/
def exWorldC4 : World :=
  ⟨"https://example.com/appcast.xml", .error .unknownException, .ok [], "", "1.0", none, false⟩

/-- A download failure by `DownloadException`, for the C4 witness. -/
def exWorldC4b : World :=
  ⟨"https://example.com/appcast.xml", .error (.downloadException "connection reset"),
   .ok [], "", "1.0", none, false⟩

/-- **C4, counterexample.** A run aborted by a non-`std` exception with
`show_dialog = false` still reports `Err_Generic "Unknown exception"` to the
host: the `catch (...)` handler does not test `show_dialog`, so "an error is
reported iff forceShow is true" fails. -/
theorem unknown_error_reported_without_dialog :
    PerformUpdateCheck exWorldC4 false (ShouldSkipUpdate none)
      = ([.notifyUpdateError .Err_Generic "Unknown exception"], some .unknownException) ∧
    hasErrorReport (PerformUpdateCheck exWorldC4 false (ShouldSkipUpdate none)).1 = true := by
  decide

/-- **C4, amended.** When a collaborator failure aborts the run, a
user-visible error report is made iff `show_dialog` is true **or** the
failure is a non-`std` exception (the `catch (...)` handler reports
unconditionally); in every case the exception raised by the body is rethrown
unchanged to the caller. -/
theorem error_report_iff (w : World) (sd : Bool) (sp : Appcast → Bool) (e : CppError)
    (h : (PerformUpdateCheck w sd sp).2 = some e) :
    hasErrorReport (PerformUpdateCheck w sd sp).1
      = (sd || e == CppError.unknownException) ∧
    (checkBody w sd sp).2 = some e := by
  rcases checkBody_cases w sd sp with hn | hev
  · rw [PerformUpdateCheck] at h
    simp only [hn] at h
    simp at h
  · cases hr : (checkBody w sd sp).2 with
    | none =>
      rw [PerformUpdateCheck] at h
      simp only [hr] at h
      simp at h
    | some err =>
      have he : err = e := by
        rw [PerformUpdateCheck] at h
        cases err <;> simp only [hr] at h <;> simpa using h
      subst he
      rw [PerformUpdateCheck]
      simp only [hr]
      cases err <;> cases sd <;>
        simp [hev, hasErrorReport, isErrorReport]

/-- Witness for the amended C4: a download failure with `show_dialog = true`
is reported to the host and rethrown. -/
theorem error_report_iff_witness :
    hasErrorReport (PerformUpdateCheck exWorldC4b true (ShouldSkipUpdate none)).1
      = (true || CppError.downloadException "connection reset" == CppError.unknownException) ∧
    (checkBody exWorldC4b true (ShouldSkipUpdate none)).2
      = some (CppError.downloadException "connection reset") :=
  error_report_iff exWorldC4b true (ShouldSkipUpdate none)
    (CppError.downloadException "connection reset") (by decide)

/-! ## Success-path analysis of the check cycle -/

/-- Is the event one of the host notifications (`UI::Notify*`)? -/
def isNotification : Event → Bool
  | .notifyNoUpdates _ _ => true
  | .notifyUpdateAvailable _ _ => true
  | .notifyUpdateError _ _ => true
  | .writeLastCheckTime => false

/-- Number of host notifications among the emitted events. -/
def notifCount (evs : List Event) : Nat := (evs.filter isNotification).length

/-- Every run of the `try` body that completes without an exception takes one
of exactly four terminal paths: NoUpdate on an empty filtered set; NoUpdate
after the outdated judgment; the silent skip return; or UpdateAvailable.  The
selected candidate and the entry list are exposed for further reasoning. -/
theorem checkBody_success_shape (w : World) (sd : Bool) (sp : Appcast → Bool)
    (h : (checkBody w sd sp).2 = none) :
    ∃ entries, w.parseResult = Except.ok entries ∧
      ((eligibleEntries (String.mk (GetServerVersion w.serverResponse.data)) entries = [] ∧
        checkBody w sd sp = ([.notifyNoUpdates w.autoInstall sd], none)) ∨
       (eligibleEntries (String.mk (GetServerVersion w.serverResponse.data)) entries ≠ [] ∧
        ((selectCandidate (sortByVersion (eligibleEntries
            (String.mk (GetServerVersion w.serverResponse.data)) entries)) w.currentVersion).ReleaseNotesURL != "" &&
          !isSecureURL (selectCandidate (sortByVersion (eligibleEntries
            (String.mk (GetServerVersion w.serverResponse.data)) entries)) w.currentVersion).ReleaseNotesURL) = false ∧
        ((selectCandidate (sortByVersion (eligibleEntries
            (String.mk (GetServerVersion w.serverResponse.data)) entries)) w.currentVersion).GetDownloadURL != "" &&
          !isSecureURL (selectCandidate (sortByVersion (eligibleEntries
            (String.mk (GetServerVersion w.serverResponse.data)) entries)) w.currentVersion).GetDownloadURL) = false ∧
        (((!(selectCandidate (sortByVersion (eligibleEntries
              (String.mk (GetServerVersion w.serverResponse.data)) entries)) w.currentVersion).IsValid ||
            decide (0 ≤ CompareVersions w.currentVersion (selectCandidate (sortByVersion (eligibleEntries
              (String.mk (GetServerVersion w.serverResponse.data)) entries)) w.currentVersion).Version)) = true ∧
          checkBody w sd sp = ([.writeLastCheckTime, .notifyNoUpdates w.autoInstall sd], none)) ∨
         ((sp (selectCandidate (sortByVersion (eligibleEntries
              (String.mk (GetServerVersion w.serverResponse.data)) entries)) w.currentVersion) && !sd) = true ∧
          checkBody w sd sp = ([.writeLastCheckTime], none)) ∨
         ((sp (selectCandidate (sortByVersion (eligibleEntries
              (String.mk (GetServerVersion w.serverResponse.data)) entries)) w.currentVersion) && !sd) = false ∧
          checkBody w sd sp = ([.writeLastCheckTime,
            .notifyUpdateAvailable (selectCandidate (sortByVersion (eligibleEntries
              (String.mk (GetServerVersion w.serverResponse.data)) entries)) w.currentVersion) w.autoInstall], none))))) := by
  by_cases hurl : w.appcastURL = ""
  · exfalso
    rw [checkBody] at h
    simp [hurl] at h
  by_cases hsec : isSecureURL w.appcastURL = true
  · cases hdl : w.downloadResult with
    | error e =>
      exfalso
      rw [checkBody] at h
      simp [hurl, hsec, hdl] at h
    | ok xml =>
      cases hp : w.parseResult with
      | error e =>
        exfalso
        rw [checkBody] at h
        simp [hurl, hsec, hdl, hp] at h
      | ok entries =>
        refine ⟨entries, rfl, ?_⟩
        by_cases hall : eligibleEntries (String.mk (GetServerVersion w.serverResponse.data)) entries = []
        · left
          refine ⟨hall, ?_⟩
          rw [checkBody]
          simp [hurl, hsec, hdl, hp, hall]
        · right
          by_cases hc4 : ((selectCandidate (sortByVersion (eligibleEntries
              (String.mk (GetServerVersion w.serverResponse.data)) entries)) w.currentVersion).ReleaseNotesURL != "" &&
                !isSecureURL (selectCandidate (sortByVersion (eligibleEntries
              (String.mk (GetServerVersion w.serverResponse.data)) entries)) w.currentVersion).ReleaseNotesURL) = true
          · exfalso
            rw [checkBody] at h
            simp [hurl, hsec, hdl, hp, hall, hc4] at h
          rw [Bool.not_eq_true] at hc4
          by_cases hc5 : ((selectCandidate (sortByVersion (eligibleEntries
              (String.mk (GetServerVersion w.serverResponse.data)) entries)) w.currentVersion).GetDownloadURL != "" &&
                !isSecureURL (selectCandidate (sortByVersion (eligibleEntries
              (String.mk (GetServerVersion w.serverResponse.data)) entries)) w.currentVersion).GetDownloadURL) = true
          · exfalso
            rw [checkBody] at h
            simp [hurl, hsec, hdl, hp, hall, hc4, hc5] at h
          rw [Bool.not_eq_true] at hc5
          refine ⟨hall, hc4, hc5, ?_⟩
          by_cases hc6 : (!(selectCandidate (sortByVersion (eligibleEntries
              (String.mk (GetServerVersion w.serverResponse.data)) entries)) w.currentVersion).IsValid ||
            decide (0 ≤ CompareVersions w.currentVersion (selectCandidate (sortByVersion (eligibleEntries
              (String.mk (GetServerVersion w.serverResponse.data)) entries)) w.currentVersion).Version)) = true
          · left
            refine ⟨hc6, ?_⟩
            rw [checkBody]
            simp [hurl, hsec, hdl, hp, hall, hc4, hc5, hc6]
          · rw [Bool.not_eq_true] at hc6
            by_cases hc7 : (sp (selectCandidate (sortByVersion (eligibleEntries
                (String.mk (GetServerVersion w.serverResponse.data)) entries)) w.currentVersion) && !sd) = true
            · right; left
              refine ⟨hc7, ?_⟩
              rw [checkBody]
              simp [hurl, hsec, hdl, hp, hall, hc4, hc5, hc6, hc7]
            · rw [Bool.not_eq_true] at hc7
              right; right
              refine ⟨hc7, ?_⟩
              rw [checkBody]
              simp [hurl, hsec, hdl, hp, hall, hc4, hc5, hc6, hc7]
  · exfalso
    rw [Bool.not_eq_true] at hsec
    rw [checkBody] at h
    simp [hurl, hsec] at h

/-- A run whose result carries no exception is exactly the `try` body's run:
the catch handlers add nothing. -/
theorem performUpdateCheck_ok (w : World) (sd : Bool) (sp : Appcast → Bool)
    (h : (PerformUpdateCheck w sd sp).2 = none) :
    PerformUpdateCheck w sd sp = checkBody w sd sp ∧ (checkBody w sd sp).2 = none := by
  cases hr : (checkBody w sd sp).2 with
  | none =>
    constructor
    · rw [PerformUpdateCheck]
      simp [hr]
    · exact hr ▸ rfl
  | some e =>
    exfalso
    rw [PerformUpdateCheck] at h
    cases e <;> simp [hr] at h

/-- **C7.** Every run of `PerformUpdateCheck` that completes without raising
an error emits exactly one notification to the host, except the path where
the chosen candidate is skipped by the skip policy with `show_dialog` false,
which terminates with no notification at all (only the timestamp write). -/
theorem exactly_one_outcome (w : World) (sd : Bool) (sp : Appcast → Bool)
    (h : (PerformUpdateCheck w sd sp).2 = none) :
    notifCount (PerformUpdateCheck w sd sp).1 = 1 ∨
    (sd = false ∧ (PerformUpdateCheck w sd sp).1 = [Event.writeLastCheckTime] ∧
      ∃ entries, w.parseResult = Except.ok entries ∧
        sp (selectCandidate (sortByVersion (eligibleEntries
          (String.mk (GetServerVersion w.serverResponse.data)) entries)) w.currentVersion) = true) := by
  obtain ⟨heq, hb⟩ := performUpdateCheck_ok w sd sp h
  rw [heq]
  obtain ⟨entries, hp, hsh⟩ := checkBody_success_shape w sd sp hb
  rcases hsh with ⟨hall, hcb⟩ | ⟨hne, hc4, hc5, hrest⟩
  · left
    rw [hcb]
    simp [notifCount, isNotification]
  · rcases hrest with ⟨hc6, hcb⟩ | ⟨hskip, hcb⟩ | ⟨hnskip, hcb⟩
    · left
      rw [hcb]
      simp [notifCount, isNotification]
    · right
      rw [Bool.and_eq_true] at hskip
      exact ⟨by simpa using hskip.2, by rw [hcb], entries, hp, hskip.1⟩
    · left
      rw [hcb]
      simp [notifCount, isNotification]

/-- The empty-feed scenario for the C7 witness. -/
def exWorldEmptyFeed : World :=
  ⟨"https://example.com/appcast.xml", .ok "feed", .ok [], "", "1.0", none, false⟩

/-- Witness for C7: on an empty feed the completed cycle emits exactly one
notification. -/
theorem exactly_one_outcome_witness :
    notifCount (PerformUpdateCheck exWorldEmptyFeed false (ShouldSkipUpdate none)).1 = 1 ∨
    (false = false ∧
      (PerformUpdateCheck exWorldEmptyFeed false (ShouldSkipUpdate none)).1
        = [Event.writeLastCheckTime] ∧
      ∃ entries, exWorldEmptyFeed.parseResult = Except.ok entries ∧
        ShouldSkipUpdate none (selectCandidate (sortByVersion (eligibleEntries
          (String.mk (GetServerVersion exWorldEmptyFeed.serverResponse.data)) entries))
          exWorldEmptyFeed.currentVersion) = true) :=
  exactly_one_outcome exWorldEmptyFeed false (ShouldSkipUpdate none) (by decide)

/-- **C6.** `ShouldSkipUpdate` returns false for every critical entry
regardless of the stored preference; for a non-critical entry it returns true
exactly when a stored skip version exists and equals the entry's version
string; the manual-check variant returns false for every entry; and the
orchestrator suppresses all notifications only when `ShouldSkipUpdate` is
true and `show_dialog` is false. -/
theorem skip_policy_spec :
    (∀ (spref : Option String) (a : Appcast), a.CriticalUpdate = true →
        ShouldSkipUpdate spref a = false) ∧
    (∀ (spref : Option String) (a : Appcast), a.CriticalUpdate = false →
        (ShouldSkipUpdate spref a = true ↔ spref = some a.Version)) ∧
    (∀ a : Appcast, ManualShouldSkipUpdate a = false) ∧
    (∀ (w : World) (sd : Bool) (spref : Option String),
        (PerformUpdateCheck w sd (ShouldSkipUpdate spref)).2 = none →
        notifCount (PerformUpdateCheck w sd (ShouldSkipUpdate spref)).1 = 0 →
        sd = false ∧ ∃ entries, w.parseResult = Except.ok entries ∧
          ShouldSkipUpdate spref (selectCandidate (sortByVersion (eligibleEntries
            (String.mk (GetServerVersion w.serverResponse.data)) entries))
            w.currentVersion) = true) := by
  refine ⟨?_, ?_, fun a => rfl, ?_⟩
  · intro spref a hc
    simp [ShouldSkipUpdate, hc]
  · intro spref a hc
    cases spref with
    | none => simp [ShouldSkipUpdate, hc]
    | some v => simp [ShouldSkipUpdate, hc]
  · intro w sd spref h hn
    obtain ⟨heq, hb⟩ := performUpdateCheck_ok w sd _ h
    rw [heq] at hn
    obtain ⟨entries, hp, hsh⟩ := checkBody_success_shape w sd _ hb
    rcases hsh with ⟨hall, hcb⟩ | ⟨hne, hc4, hc5, hrest⟩
    · rw [hcb] at hn
      simp [notifCount, isNotification] at hn
    · rcases hrest with ⟨hc6, hcb⟩ | ⟨hskip, hcb⟩ | ⟨hnskip, hcb⟩
      · rw [hcb] at hn
        simp [notifCount, isNotification] at hn
      · rw [Bool.and_eq_true] at hskip
        exact ⟨by simpa using hskip.2, entries, hp, hskip.1⟩
      · rw [hcb] at hn
        simp [notifCount, isNotification] at hn

/-- Witness for C6: a critical entry is not skipped even when the stored skip
version equals its version. -/
theorem skip_policy_spec_witness :
    ShouldSkipUpdate (some "2.0") exEntry2 = false :=
  skip_policy_spec.1 (some "2.0") exEntry2 (by decide)

/-- Shape of a failed run's event list: the body emitted nothing, and the
catch handler adds at most one error notification. -/
theorem performUpdateCheck_events (w : World) (sd : Bool) (sp : Appcast → Bool) :
    ((checkBody w sd sp).2 = none ∧ PerformUpdateCheck w sd sp = checkBody w sd sp) ∨
    ((checkBody w sd sp).1 = [] ∧
      ((PerformUpdateCheck w sd sp).1 = [] ∨
       ∃ c m, (PerformUpdateCheck w sd sp).1 = [Event.notifyUpdateError c m])) := by
  cases hr : (checkBody w sd sp).2 with
  | none =>
    left
    refine ⟨rfl, ?_⟩
    rw [PerformUpdateCheck]
    simp [hr]
  | some e =>
    right
    have hev : (checkBody w sd sp).1 = [] := by
      rcases checkBody_cases w sd sp with hn | hev
      · rw [hn] at hr
        cases hr
      · exact hev
    refine ⟨hev, ?_⟩
    rw [PerformUpdateCheck]
    cases e with
    | downloadException m =>
      cases sd
      · left
        simp [hr, hev]
      · right
        exact ⟨ErrorCode.Err_AppcastXmlUnavailable, m, by simp [hr, hev]⟩
    | stdException m =>
      cases sd
      · left
        simp [hr, hev]
      · right
        exact ⟨ErrorCode.Err_Generic, m, by simp [hr, hev]⟩
    | unknownException =>
      right
      exact ⟨ErrorCode.Err_Generic, "Unknown exception", by simp [hr, hev]⟩

/-- Is the event the `Settings::WriteConfigValue("LastCheckTime", ...)` write? -/
def isTimestampWrite : Event → Bool
  | .writeLastCheckTime => true
  | _ => false

/-- Number of timestamp writes among the emitted events. -/
def tsCount (evs : List Event) : Nat := (evs.filter isTimestampWrite).length

/-- **C8.** The last-check timestamp is written at most once per run; whenever
it is written, it is the first emitted event (so it precedes every
notification, in particular the outdated judgment's NoUpdate), the filtered
set was non-empty and both URL validations of the chosen candidate passed;
and when the baseline filter yields an empty set the cycle reports NoUpdate
without writing the timestamp. -/
theorem timestamp_write_point (w : World) (sd : Bool) (sp : Appcast → Bool) :
    tsCount (PerformUpdateCheck w sd sp).1 ≤ 1 ∧
    (Event.writeLastCheckTime ∈ (PerformUpdateCheck w sd sp).1 →
      (PerformUpdateCheck w sd sp).1.head? = some Event.writeLastCheckTime ∧
      ∃ entries, w.parseResult = Except.ok entries ∧
        eligibleEntries (String.mk (GetServerVersion w.serverResponse.data)) entries ≠ [] ∧
        ((selectCandidate (sortByVersion (eligibleEntries
            (String.mk (GetServerVersion w.serverResponse.data)) entries)) w.currentVersion).ReleaseNotesURL != "" &&
          !isSecureURL (selectCandidate (sortByVersion (eligibleEntries
            (String.mk (GetServerVersion w.serverResponse.data)) entries)) w.currentVersion).ReleaseNotesURL) = false ∧
        ((selectCandidate (sortByVersion (eligibleEntries
            (String.mk (GetServerVersion w.serverResponse.data)) entries)) w.currentVersion).GetDownloadURL != "" &&
          !isSecureURL (selectCandidate (sortByVersion (eligibleEntries
            (String.mk (GetServerVersion w.serverResponse.data)) entries)) w.currentVersion).GetDownloadURL) = false) ∧
    (∀ (entries : List Appcast) (xml : String), ¬ w.appcastURL = "" →
      isSecureURL w.appcastURL = true →
      w.downloadResult = Except.ok xml → w.parseResult = Except.ok entries →
      eligibleEntries (String.mk (GetServerVersion w.serverResponse.data)) entries = [] →
      PerformUpdateCheck w sd sp = ([Event.notifyNoUpdates w.autoInstall sd], none)) := by
  refine ⟨?_, ?_, ?_⟩
  · rcases performUpdateCheck_events w sd sp with ⟨hb, heq⟩ | ⟨hbe, hpe⟩
    · rw [heq]
      obtain ⟨entries, hp, hsh⟩ := checkBody_success_shape w sd sp hb
      rcases hsh with ⟨hall, hcb⟩ | ⟨hne, hc4, hc5, hrest⟩
      · rw [hcb]
        simp [tsCount, isTimestampWrite]
      · rcases hrest with ⟨hc6, hcb⟩ | ⟨hskip, hcb⟩ | ⟨hnskip, hcb⟩ <;>
          rw [hcb] <;> simp [tsCount, isTimestampWrite]
    · rcases hpe with hpe | ⟨c, m, hpe⟩ <;> rw [hpe] <;> simp [tsCount, isTimestampWrite]
  · intro hmem
    rcases performUpdateCheck_events w sd sp with ⟨hb, heq⟩ | ⟨hbe, hpe⟩
    · rw [heq] at hmem ⊢
      obtain ⟨entries, hp, hsh⟩ := checkBody_success_shape w sd sp hb
      rcases hsh with ⟨hall, hcb⟩ | ⟨hne, hc4, hc5, hrest⟩
      · rw [hcb] at hmem
        simp at hmem
      · rcases hrest with ⟨hc6, hcb⟩ | ⟨hskip, hcb⟩ | ⟨hnskip, hcb⟩ <;>
          rw [hcb] <;>
          exact ⟨rfl, entries, hp, hne, hc4, hc5⟩
    · exfalso
      rcases hpe with hpe | ⟨c, m, hpe⟩ <;> rw [hpe] at hmem <;> simp at hmem
  · intro entries xml hurl hsec hdl hp hall
    have hcb : checkBody w sd sp = ([Event.notifyNoUpdates w.autoInstall sd], none) := by
      rw [checkBody]
      simp [hurl, hsec, hdl, hp, hall]
    rw [PerformUpdateCheck, hcb]

/-- Witness for C8: an entry gated on a baseline that the absent probe cannot
satisfy gives the empty filtered set, the NoUpdate outcome and no timestamp
write. -/
theorem timestamp_write_point_witness :
    PerformUpdateCheck ⟨"https://example.com/appcast.xml", .ok "feed", .ok [exEntryMin],
        "", "0.5", none, false⟩ false (ShouldSkipUpdate none)
      = ([Event.notifyNoUpdates false false], none) :=
  (timestamp_write_point _ false (ShouldSkipUpdate none)).2.2 [exEntryMin] "feed"
    (by decide) (by decide) rfl rfl (by decide)

/-- **C9.** In a periodic-scheduler turn with checking enabled,
`nextCheck = lastCheckTime + interval` with `lastCheckTime` defaulting to
zero when never recorded; if `now ≥ nextCheck` a cycle runs immediately with
`show_dialog = false` and the following wait is the full interval, otherwise
no cycle runs and the wait is exactly `nextCheck − now` seconds; in
particular `lastCheckTime = T`, `interval = 3600`, `now = T + 1800` yields a
1800-second wait and no cycle. -/
theorem periodic_schedule (lc : Option Int) (interval now : Int) :
    (now ≥ lc.getD 0 + interval →
      periodicTurn true lc interval now = (some false, interval)) ∧
    (now < lc.getD 0 + interval →
      periodicTurn true lc interval now = (none, lc.getD 0 + interval - now)) ∧
    (∀ T : Int, periodicTurn true (some T) 3600 (T + 1800) = (none, 1800)) := by
  refine ⟨?_, ?_, ?_⟩
  · intro h
    simp [periodicTurn, h]
  · intro h
    have h' : ¬ now ≥ lc.getD 0 + interval := by omega
    simp [periodicTurn, h']
  · intro T
    have h' : ¬ T + 1800 ≥ (some T : Option Int).getD 0 + 3600 := by
      simp only [Option.getD_some]
      omega
    simp [periodicTurn, h']

/-- Witness for C9: with last check at 0, interval 10 and now 20 the due
cycle runs with `show_dialog = false` and the wait is the full interval. -/
theorem periodic_schedule_witness :
    periodicTurn true (some 0) 10 20 = (some false, 10) :=
  (periodic_schedule (some 0) 10 20).1 (by decide)

/-- **C10.** If the probe's HTTP response is non-empty, yields no
`oethServerVersion` value, and yields an `error_msg` value containing the
substring "404", `GetServerVersion` returns the hard-coded default baseline
"2.1.2"; in every other failure case (empty response, neither key yielding a
value, `error_msg` value without "404") it returns the empty string. -/
theorem server_version_error_cases (resp : List Char) :
    (resp ≠ [] →
      ParseGetVersionResponseJSON resp "oethServerVersion".data = [] →
      ParseGetVersionResponseJSON resp "error_msg".data ≠ [] →
      (strFind (ParseGetVersionResponseJSON resp "error_msg".data) "404".data 0).isSome = true →
      GetServerVersion resp = "2.1.2".data) ∧
    (resp = [] → GetServerVersion resp = []) ∧
    (ParseGetVersionResponseJSON resp "oethServerVersion".data = [] →
      ParseGetVersionResponseJSON resp "error_msg".data = [] →
      GetServerVersion resp = []) ∧
    (ParseGetVersionResponseJSON resp "oethServerVersion".data = [] →
      (strFind (ParseGetVersionResponseJSON resp "error_msg".data) "404".data 0).isSome = false →
      GetServerVersion resp = []) := by
  refine ⟨?_, ?_, ?_, ?_⟩
  · intro h1 h2 h3 h4
    rw [GetServerVersion]
    simp [h1, h2, h3, h4]
  · intro h1
    rw [GetServerVersion]
    simp [h1]
  · intro h2 h3
    rw [GetServerVersion]
    by_cases h1 : resp = []
    · simp [h1]
    · simp [h1, h2, h3]
  · intro h2 h4
    rw [GetServerVersion]
    by_cases h1 : resp = []
    · simp [h1]
    · by_cases h3 : ParseGetVersionResponseJSON resp "error_msg".data = []
      · simp [h1, h2, h3]
      · simp [h1, h2, h3, h4]

/-- Witness for C10: a response with only an `error_msg` value containing
"404" makes the probe fall back to the default baseline "2.1.2". -/
theorem server_version_error_cases_witness :
    GetServerVersion "error_msg: \"http error 404\"".data = "2.1.2".data :=
  (server_version_error_cases "error_msg: \"http error 404\"".data).1
    (by decide) (by decide) (by decide) (by decide)
